import Mathlib

/-!
# Verification of `book_search/book_price_drop.py`

Shallow embedding of the price-aggregation and historical-merge logic of the
book-price tracker, together with proofs of its specified properties.

Modelling conventions:
* Prices are exact rationals (`ℚ`); the Python code computes on decimal price
  values, and the tolerance margin `0.02` is embedded as `2/100`.
* Nullable dataframe cells (`None`/`NaN`) are `Option` values.
* Python's `round` (round-half-to-even on the exact value) is
  `round_half_even`.
* The per-store network call of `scrape_price_from_store` is abstracted by
  passing the scraped quote (`Option ℚ`, the result of `get_price`) as an
  argument; the store adapters themselves are embedded separately over an
  explicit `Response` value carrying the HTTP status code and parsed page.
-/

namespace BookSearch

/-- Python's built-in `round` to an integer: round half to even, modelled on
exact rationals. -/
def round_half_even (x : ℚ) : ℤ :=
  let f : ℤ := ⌊x⌋
  let frac : ℚ := x - (f : ℚ)
  if frac < 1/2 then f
  else if 1/2 < frac then f + 1
  else if f % 2 = 0 then f else f + 1

/-- A row of the in-run book table (`df_books`): identity and default price
from the catalog, plus the three working columns initialised to `None` by
`read_books`. -/
structure Book where
  isbn : String
  title : String
  default_price : ℚ
  best_price : Option ℚ
  best_store : Option String
  discount : Option ℤ
deriving DecidableEq, Repr

/-- The update branch of `scrape_price_from_store` (lines 205-212 of the
source): sets `best_price` and `discount`, then chooses `best_store`.  The
source compares `scraped_price == row["best_price"]` *after* `best_price` has
already been assigned `scraped_price`, so the comparison is against the
updated field; the embedding reproduces that by comparing with
`updated.best_price`. -/
def acceptQuote (row : Book) (store : String) (q : ℚ) : Book :=
  let updated : Book :=
    { row with
      best_price := some q
      discount := some (round_half_even ((1 - q / row.default_price) * 100)) }
  match row.best_store with
  | some s =>
      if updated.best_price = some q then
        { updated with best_store := some (s ++ "," ++ store) }
      else
        { updated with best_store := some store }
  | none => { updated with best_store := some store }

/-- `scrape_price_from_store` with the network call abstracted: `scraped_price`
is the value `get_price` returned for this store and book.  `None` (absence)
leaves the row unchanged; otherwise the quote is folded in under the
`0.02` rounding-tolerance rule. -/
def scrape_price_from_store (row : Book) (store : String)
    (scraped_price : Option ℚ) : Book :=
  match scraped_price with
  | none => row
  | some q =>
    match row.best_price with
    | none => acceptQuote row store q
    | some p => if q ≤ p + 2/100 then acceptQuote row store q else row

lemma acceptQuote_best_price (row : Book) (store : String) (q : ℚ) :
    (acceptQuote row store q).best_price = some q := by
  unfold acceptQuote
  cases row.best_store <;> simp

lemma acceptQuote_discount (row : Book) (store : String) (q : ℚ) :
    (acceptQuote row store q).discount =
      some (round_half_even ((1 - q / row.default_price) * 100)) := by
  unfold acceptQuote
  cases row.best_store <;> simp

lemma acceptQuote_best_store (row : Book) (store : String) (q : ℚ) :
    (acceptQuote row store q).best_store =
      match row.best_store with
      | some s => some (s ++ "," ++ store)
      | none => some store := by
  unfold acceptQuote
  cases row.best_store <;> simp

lemma scrape_accepted (row : Book) (store : String) (q : ℚ)
    (h : row.best_price = none ∨ ∃ p, row.best_price = some p ∧ q ≤ p + 2/100) :
    scrape_price_from_store row store (some q) = acceptQuote row store q := by
  unfold scrape_price_from_store
  rcases h with h | ⟨p, hp, hq⟩
  · rw [h]
  · rw [hp]
    simp [hq]

lemma scrape_rejected (row : Book) (store : String) (q p : ℚ)
    (hp : row.best_price = some p) (hlt : p + 2/100 < q) :
    scrape_price_from_store row store (some q) = row := by
  unfold scrape_price_from_store
  rw [hp]
  simp [not_le.mpr hlt]

/-- C1: a non-absent scraped quote `q` is accepted (`best_price` becomes `q`)
iff the book has no current best price or `q ≤ best_price + 0.02`; a quote
strictly above `best_price + 0.02` leaves the row unchanged. -/
theorem scrape_tolerance_tie_break (row : Book) (store : String) (q : ℚ) :
    ((scrape_price_from_store row store (some q)).best_price = some q ↔
      row.best_price = none ∨ ∃ p, row.best_price = some p ∧ q ≤ p + 2/100) ∧
    (∀ p, row.best_price = some p → p + 2/100 < q →
      scrape_price_from_store row store (some q) = row) := by
  constructor
  · cases hbp : row.best_price with
    | none =>
        rw [scrape_accepted row store q (Or.inl hbp)]
        simp [acceptQuote_best_price, hbp]
    | some p =>
        by_cases hq : q ≤ p + 2/100
        · rw [scrape_accepted row store q (Or.inr ⟨p, hbp, hq⟩)]
          simp [acceptQuote_best_price, hbp, hq]
        · rw [scrape_rejected row store q p hbp (not_le.mp hq)]
          rw [hbp]
          have hpq : p ≠ q := by
            rintro rfl
            exact hq (by linarith)
          constructor
          · intro h
            injection h with h
            exact absurd h hpq
          · rintro (h | ⟨p₂, hp₂, hq₂⟩)
            · exact absurd h (by simp)
            · injection hp₂ with hp₂
              subst hp₂
              exact absurd hq₂ hq
  · intro p hp hlt
    exact scrape_rejected row store q p hp hlt

/-- Witness for C1 at the spec's example: current best price 10.00, quote
10.02 accepted, quote 10.03 rejected; and a row with no best price accepts
any quote. -/
theorem scrape_tolerance_tie_break_witness :
    (scrape_price_from_store ⟨"1", "T", 20, some 10, some "A", some 0⟩ "B"
        (some (1002/100))).best_price = some (1002/100) ∧
    scrape_price_from_store ⟨"1", "T", 20, some 10, some "A", some 0⟩ "B"
        (some (1003/100)) = ⟨"1", "T", 20, some 10, some "A", some 0⟩ ∧
    (scrape_price_from_store ⟨"1", "T", 20, none, none, none⟩ "B"
        (some 500)).best_price = some 500 := by
  refine ⟨?_, ?_, ?_⟩
  · exact (scrape_tolerance_tie_break _ "B" _).1.mpr
      (Or.inr ⟨10, rfl, by norm_num⟩)
  · exact (scrape_tolerance_tie_break _ "B" _).2 10 rfl (by norm_num)
  · exact (scrape_tolerance_tie_break _ "B" _).1.mpr (Or.inl rfl)

/-- C3: on every qualifying update, `best_store` becomes the current store
name, except when a best store is already recorded and the scraped price
equals the now-updated `best_price` (the field after it has been assigned the
scraped price), in which case the store name is appended to the existing
value joined by a comma. -/
theorem scrape_best_store_append_rule (row : Book) (store : String) (q : ℚ)
    (h : row.best_price = none ∨ ∃ p, row.best_price = some p ∧ q ≤ p + 2/100) :
    (scrape_price_from_store row store (some q)).best_store =
      match row.best_store with
      | some s =>
          if (scrape_price_from_store row store (some q)).best_price = some q
          then some (s ++ "," ++ store) else some store
      | none => some store := by
  rw [scrape_accepted row store q h]
  rw [acceptQuote_best_store row store q]
  cases row.best_store with
  | none => rfl
  | some s => simp [acceptQuote_best_price]

/-- Witness for C3: store "A" already recorded at best price 9.99, store "B"
quotes 9.99 again; the best store becomes "A,B". -/
theorem scrape_best_store_append_rule_witness :
    (scrape_price_from_store ⟨"1", "T", 20, some (999/100), some "A", some 50⟩
        "B" (some (999/100))).best_store = some "A,B" := by
  have h := scrape_best_store_append_rule
    ⟨"1", "T", 20, some (999/100), some "A", some 50⟩ "B" (999/100)
    (Or.inr ⟨999/100, rfl, by norm_num⟩)
  rw [h]
  rw [scrape_accepted _ _ _ (Or.inr ⟨999/100, rfl, by norm_num⟩),
    acceptQuote_best_price]
  simp

/-- C2 (evaluation of the code at the claimed inputs): with best price 9.99
achieved by store "A", a 9.99 quote from store "B" yields best store "A,B" —
but a strictly better 9.97 quote from "B" *also* yields "A,B", because the
source compares the scraped price with the already-updated `best_price`
(line 209 runs after line 205), making the tie test vacuously true.  The
code's own comment says the append is meant only for stores with the same
price. -/
theorem scrape_multi_store_eval :
    (scrape_price_from_store ⟨"1", "T", 20, some (999/100), some "A", some 50⟩
        "B" (some (999/100))).best_store = some "A,B" ∧
    (scrape_price_from_store ⟨"1", "T", 20, some (999/100), some "A", some 50⟩
        "B" (some (997/100))).best_store = some "A,B" := by
  constructor
  · rw [scrape_accepted _ _ _ (Or.inr ⟨999/100, rfl, by norm_num⟩)]
    rw [acceptQuote_best_store]
    rfl
  · rw [scrape_accepted _ _ _ (Or.inr ⟨999/100, rfl, by norm_num⟩)]
    rw [acceptQuote_best_store]
    rfl

/-- C9: on every accepted quote `q`, the discount is recomputed as
`round((1 - q / default_price) * 100)` with Python's half-to-even rounding. -/
theorem scrape_discount_formula (row : Book) (store : String) (q : ℚ)
    (h : row.best_price = none ∨ ∃ p, row.best_price = some p ∧ q ≤ p + 2/100) :
    (scrape_price_from_store row store (some q)).discount =
      some (round_half_even ((1 - q / row.default_price) * 100)) := by
  rw [scrape_accepted row store q h]
  exact acceptQuote_discount row store q

/-- Witness for C9 at the spec's example: default price 20.00, accepted quote
15.00, discount 25. -/
theorem scrape_discount_formula_witness :
    (scrape_price_from_store ⟨"1", "T", 20, none, none, none⟩ "A"
        (some 15)).discount = some 25 := by
  have h := scrape_discount_formula ⟨"1", "T", 20, none, none, none⟩ "A" 15
    (Or.inl rfl)
  rw [h]
  norm_num [round_half_even]

/-- One pass of the Quote Resolver over a list of (store, quote) outcomes for
a single book: the in-place row mutation of successive store passes as a
fold. -/
def scrape_store_passes (row : Book) (quotes : List (String × Option ℚ)) :
    Book :=
  quotes.foldl (fun r sq => scrape_price_from_store r sq.1 sq.2) row

lemma scrape_step_best_price (row : Book) (store : String) (oq : Option ℚ) :
    (scrape_price_from_store row store oq).best_price = row.best_price ∨
    ∃ q, oq = some q ∧ (scrape_price_from_store row store oq).best_price = some q := by
  cases oq with
  | none => exact Or.inl rfl
  | some q =>
    cases hbp : row.best_price with
    | none =>
      refine Or.inr ⟨q, rfl, ?_⟩
      rw [scrape_accepted row store q (Or.inl hbp)]
      exact acceptQuote_best_price row store q
    | some p =>
      by_cases hq : q ≤ p + 2/100
      · refine Or.inr ⟨q, rfl, ?_⟩
        rw [scrape_accepted row store q (Or.inr ⟨p, hbp, hq⟩)]
        exact acceptQuote_best_price row store q
      · exact Or.inl
          (by rw [scrape_rejected row store q p hbp (not_le.mp hq)]; exact hbp)

/-- C4 (counterexample): starting from no best price, quotes 10.00 from store
"A" and 10.02 from store "B" produce final best price 10.02 when "A" is
processed first, but 10.00 when "B" is processed first — the processing order
changes the final numeric best price, not only the best-store string. -/
theorem scrape_order_dependence_counterexample :
    (scrape_store_passes ⟨"1", "T", 20, none, none, none⟩
        [("A", some 10), ("B", some (1002/100))]).best_price = some (1002/100) ∧
    (scrape_store_passes ⟨"1", "T", 20, none, none, none⟩
        [("B", some (1002/100)), ("A", some 10)]).best_price = some 10 ∧
    (1002/100 : ℚ) ≠ 10 := by
  refine ⟨?_, ?_, by norm_num⟩
  · have hrow : scrape_store_passes ⟨"1", "T", 20, none, none, none⟩
        [("A", some 10), ("B", some (1002/100))] =
        scrape_price_from_store
          (scrape_price_from_store ⟨"1", "T", 20, none, none, none⟩ "A"
            (some 10)) "B" (some (1002/100)) := rfl
    rw [hrow]
    rw [scrape_accepted _ "A" _ (Or.inl rfl)]
    rw [scrape_accepted _ "B" _
      (Or.inr ⟨10, acceptQuote_best_price _ "A" 10, by norm_num⟩)]
    exact acceptQuote_best_price _ "B" _
  · have hrow : scrape_store_passes ⟨"1", "T", 20, none, none, none⟩
        [("B", some (1002/100)), ("A", some 10)] =
        scrape_price_from_store
          (scrape_price_from_store ⟨"1", "T", 20, none, none, none⟩ "B"
            (some (1002/100))) "A" (some 10) := rfl
    rw [hrow]
    rw [scrape_accepted _ "B" _ (Or.inl rfl)]
    rw [scrape_accepted _ "A" _
      (Or.inr ⟨1002/100, acceptQuote_best_price _ "B" _, by norm_num⟩)]
    exact acceptQuote_best_price _ "A" _

/-- C4 (amended): the final numeric best price after folding the store passes
may depend on the processing order (see the counterexample); what does hold
for every order is that the final `best_price` is either unchanged from the
start or the value of one of the non-absent quotes. -/
theorem scrape_final_price_among_quotes (row : Book)
    (quotes : List (String × Option ℚ)) :
    (scrape_store_passes row quotes).best_price = row.best_price ∨
    ∃ sq ∈ quotes, ∃ q, sq.2 = some q ∧
      (scrape_store_passes row quotes).best_price = some q := by
  induction quotes generalizing row with
  | nil => exact Or.inl rfl
  | cons sq rest ih =>
    have hfold : scrape_store_passes row (sq :: rest) =
        scrape_store_passes (scrape_price_from_store row sq.1 sq.2) rest := rfl
    rcases ih (scrape_price_from_store row sq.1 sq.2) with h | ⟨sq₂, hmem, q, hq, hval⟩
    · rcases scrape_step_best_price row sq.1 sq.2 with h₂ | ⟨q, hq, hval⟩
      · exact Or.inl (by rw [hfold, h, h₂])
      · exact Or.inr ⟨sq, List.mem_cons_self sq rest, q, hq, by rw [hfold, h, hval]⟩
    · exact Or.inr ⟨sq₂, List.mem_cons_of_mem sq hmem, q, hq, by rw [hfold, hval]⟩

/-! ## Historical ledger (`update_historical_data`) -/

/-- One row of the historical ledger (`df_history`): identity fields mirrored
from the catalog, the running best-price record, and the date it was
achieved.  The per-date price columns are kept separately in `Ledger`. -/
structure LedgerRow where
  isbn : String
  title : String
  default_price : ℚ
  best_price : Option ℚ
  best_store : Option String
  discount : Option ℤ
  best_date : Option String
deriving DecidableEq, Repr

/-- One per-date price column of the ledger: the column label (a date string)
and, for each ledger row, that day's best price (absent for books not scraped
that day). -/
structure DateCol where
  date : String
  prices : List (String × Option ℚ)
deriving DecidableEq, Repr

/-- The historical ledger dataframe: rows keyed by isbn plus the per-date
price columns.  The source inserts a new date column at position 9; the
column position is presentational and the embedding keeps the date columns in
their own list in insertion order. -/
structure Ledger where
  rows : List LedgerRow
  dateCols : List DateCol
deriving DecidableEq, Repr

/-- Row lookup by isbn, as `df_history.loc[isbn]` (rows are keyed by the
isbn index). -/
def findRow (rows : List LedgerRow) (k : String) : Option LedgerRow :=
  rows.find? (fun r => r.isbn == k)

/-- Seeding of a missing ledger row from today's record, as the rest of the
merge model uses it: the by-name copy of the fields shared with today's
table, with `best_date` (absent from today's table) left absent.  This is
the intended seed, not what line 159 actually computes: the source's
`df_history.loc[idx] = book_series` assigns the `itertuples` namedtuple to
the ledger columns positionally and length-strictly (see `locAssign` below),
which shifts every field or raises once date columns exist.  Of a seeded
row, the other merge theorems rely only on the `isbn` field, which lands
correctly under either semantics because the tuple's leading index value
equals the isbn column (`set_index("isbn", drop=False)`). -/
def seedRow (b : Book) : LedgerRow :=
  ⟨b.isbn, b.title, b.default_price, b.best_price, b.best_store, b.discount,
    none⟩

/-- A single dataframe cell, untyped as in a pandas object column. -/
inductive Cell where
  | str (s : String)
  | rat (q : ℚ)
  | int (z : ℤ)
  | absent
deriving DecidableEq, Repr

/-- The pandas row assignment `df.loc[label] = values` performed at line 159
with an `itertuples` namedtuple as `values`: the value sequence is matched
against the dataframe columns positionally and length-strictly — a length
mismatch raises `ValueError` ("cannot set a row with mismatched columns"),
otherwise column `i` receives value `i`. -/
def locAssign (cols : List String) (vals : List Cell) :
    Except String (List (String × Cell)) :=
  if cols.length = vals.length then Except.ok (cols.zip vals)
  else Except.error "ValueError"

/-- The per-book running-best update of the merge loop (lines 161-174): skip
when today's best price is absent; otherwise overwrite the running-best
fields when `today_best ≤ ledger_best + 0.02`.  An absent ledger best price
compares false (pandas `NaN` comparison semantics), leaving the row
unchanged. -/
def updateRow (today : String) (b : Book) (r : LedgerRow) : LedgerRow :=
  match b.best_price with
  | none => r
  | some q =>
    match r.best_price with
    | none => r
    | some p =>
      if q ≤ p + 2/100 then
        { r with
          best_price := some q
          best_store := b.best_store
          discount := b.discount
          best_date := some today }
      else r

/-- The keyed in-place update `df_history.loc[isbn, ...] = ...`: the row
whose isbn matches today's book is replaced by its updated value, all other
rows are untouched. -/
def applyUpdate (today : String) (b : Book) (r : LedgerRow) : LedgerRow :=
  if r.isbn == b.isbn then updateRow today b r else r

/-- One iteration of the merge loop body for one book of today's table:
seed the row if the isbn is missing from the ledger, then apply the
running-best update to the row with that isbn. -/
def mergeBook (today : String) (rows : List LedgerRow) (b : Book) :
    List LedgerRow :=
  let rows₂ :=
    if rows.any (fun r => r.isbn == b.isbn) then rows
    else rows ++ [seedRow b]
  rows₂.map (applyUpdate today b)

/-- Today's price column
(`df_history.insert(loc=9, column=today_date, value=df_books["best_price"])`):
the values of `df_books["best_price"]` aligned on the ledger's isbn index,
absent for ledger rows with no row in today's table. -/
def todayCol (today : String) (rows : List LedgerRow) (books : List Book) :
    DateCol :=
  ⟨today,
    rows.map (fun r =>
      (r.isbn, (books.find? (fun b => b.isbn == r.isbn)).bind Book.best_price))⟩

/-- `update_historical_data`: fold the merge loop over today's books, then
append today's price column unless a column with today's date already
exists. -/
def update_historical_data (today : String) (history : Ledger)
    (books : List Book) : Ledger :=
  let rows := books.foldl (mergeBook today) history.rows
  let cols :=
    if history.dateCols.any (fun c => c.date == today) then history.dateCols
    else history.dateCols ++ [todayCol today rows books]
  ⟨rows, cols⟩

lemma update_historical_data_rows (today : String) (history : Ledger)
    (books : List Book) :
    (update_historical_data today history books).rows =
      books.foldl (mergeBook today) history.rows := by
  unfold update_historical_data
  by_cases h : history.dateCols.any (fun c => c.date == today) <;> simp [h]

lemma updateRow_isbn (today : String) (b : Book) (r : LedgerRow) :
    (updateRow today b r).isbn = r.isbn := by
  unfold updateRow
  cases b.best_price with
  | none => rfl
  | some q =>
    cases r.best_price with
    | none => rfl
    | some p => by_cases h : q ≤ p + 2/100 <;> simp [h]

lemma applyUpdate_isbn (today : String) (b : Book) (r : LedgerRow) :
    (applyUpdate today b r).isbn = r.isbn := by
  unfold applyUpdate
  by_cases h : (r.isbn == b.isbn) = true <;> simp [h, updateRow_isbn]

lemma applyUpdate_ne (today : String) (b : Book) (r : LedgerRow)
    (h : r.isbn ≠ b.isbn) : applyUpdate today b r = r := by
  unfold applyUpdate
  simp [h]

lemma find?_map_applyUpdate (today : String) (b : Book) (k : String)
    (rows : List LedgerRow) :
    List.find? (fun r => r.isbn == k) (rows.map (applyUpdate today b)) =
      (List.find? (fun r => r.isbn == k) rows).map (applyUpdate today b) := by
  rw [List.find?_map]
  have hpred : ((fun r : LedgerRow => r.isbn == k) ∘ applyUpdate today b) =
      (fun r : LedgerRow => r.isbn == k) := by
    funext r
    simp [Function.comp, applyUpdate_isbn]
  rw [hpred]

/-- Looking a key up after the merge of one book with a different isbn is
unchanged. -/
lemma findRow_mergeBook_ne (today : String) (rows : List LedgerRow) (b : Book)
    (k : String) (hk : b.isbn ≠ k) :
    findRow (mergeBook today rows b) k = findRow rows k := by
  unfold mergeBook findRow
  by_cases hany : (rows.any fun r => r.isbn == b.isbn) = true
  · rw [if_pos hany, find?_map_applyUpdate]
    cases hf : rows.find? (fun r => r.isbn == k) with
    | none => rfl
    | some r =>
      have hr := List.find?_some hf
      have hrk : r.isbn = k := by simpa using hr
      show some (applyUpdate today b r) = some r
      rw [applyUpdate_ne today b r (by rw [hrk]; exact fun h => hk h.symm)]
  · rw [if_neg hany, find?_map_applyUpdate, List.find?_append]
    have hseed : List.find? (fun r => r.isbn == k) [seedRow b] = none := by
      have hb : (b.isbn == k) = false := beq_eq_false_iff_ne.mpr hk
      simp [seedRow, List.find?, hb]
    rw [hseed]
    cases hf : rows.find? (fun r => r.isbn == k) with
    | none => rfl
    | some r =>
      have hr := List.find?_some hf
      have hrk : r.isbn = k := by simpa using hr
      show some (applyUpdate today b r) = some r
      rw [applyUpdate_ne today b r (by rw [hrk]; exact fun h => hk h.symm)]

/-- Looking the merged book's own isbn up yields the updated (possibly
freshly seeded) row. -/
lemma findRow_mergeBook_self (today : String) (rows : List LedgerRow)
    (b : Book) :
    findRow (mergeBook today rows b) b.isbn =
      some (updateRow today b ((findRow rows b.isbn).getD (seedRow b))) := by
  unfold mergeBook findRow
  by_cases hany : (rows.any fun r => r.isbn == b.isbn) = true
  · rw [if_pos hany, find?_map_applyUpdate]
    obtain ⟨r, hmem, hr⟩ := List.any_eq_true.mp hany
    cases hf : rows.find? (fun r => r.isbn == b.isbn) with
    | none => exact absurd (List.find?_eq_none.mp hf r hmem) (by simp [hr])
    | some r₂ =>
      have hr₂ := List.find?_some hf
      show some (applyUpdate today b r₂) = some (updateRow today b r₂)
      unfold applyUpdate
      rw [if_pos hr₂]
  · rw [if_neg hany, find?_map_applyUpdate, List.find?_append]
    have hfnone : rows.find? (fun r => r.isbn == b.isbn) = none := by
      rw [List.find?_eq_none]
      intro r hmem hr
      exact hany (List.any_eq_true.mpr ⟨r, hmem, hr⟩)
    rw [hfnone]
    have hseed : List.find? (fun r => r.isbn == b.isbn) [seedRow b] =
        some (seedRow b) := by
      simp [seedRow, List.find?]
    rw [hseed]
    unfold applyUpdate
    simp [seedRow]

/-- Folding the merge loop over books whose isbns all differ from `k` leaves
the lookup at `k` unchanged. -/
lemma findRow_foldl_ne (today : String) (books : List Book)
    (rows : List LedgerRow) (k : String) (hk : ∀ x ∈ books, x.isbn ≠ k) :
    findRow (books.foldl (mergeBook today) rows) k = findRow rows k := by
  induction books generalizing rows with
  | nil => rfl
  | cons x rest ih =>
    rw [List.foldl_cons]
    rw [ih _ (fun y hy => hk y (List.mem_cons_of_mem x hy))]
    exact findRow_mergeBook_ne today rows x k (hk x (List.mem_cons_self x rest))

/-- Folding the merge loop over a book list in which exactly one entry `b`
carries its isbn turns the lookup at `b.isbn` into the updated (possibly
freshly seeded) row. -/
lemma findRow_fold_update (today : String) (rows : List LedgerRow)
    (pre post : List Book) (b : Book)
    (hpre : ∀ x ∈ pre, x.isbn ≠ b.isbn) (hpost : ∀ x ∈ post, x.isbn ≠ b.isbn) :
    findRow ((pre ++ b :: post).foldl (mergeBook today) rows) b.isbn =
      some (updateRow today b ((findRow rows b.isbn).getD (seedRow b))) := by
  rw [List.foldl_append, List.foldl_cons]
  rw [findRow_foldl_ne today post _ b.isbn hpost]
  rw [findRow_mergeBook_self]
  rw [findRow_foldl_ne today pre rows b.isbn hpre]

lemma countP_map_applyUpdate (today : String) (b : Book) (k : String)
    (rows : List LedgerRow) :
    (rows.map (applyUpdate today b)).countP (fun r => r.isbn == k) =
      rows.countP (fun r => r.isbn == k) := by
  rw [List.countP_map]
  apply List.countP_congr
  intro r _
  simp [Function.comp, applyUpdate_isbn]

lemma countKey_mergeBook_ne (today : String) (rows : List LedgerRow)
    (b : Book) (k : String) (hk : b.isbn ≠ k) :
    (mergeBook today rows b).countP (fun r => r.isbn == k) =
      rows.countP (fun r => r.isbn == k) := by
  unfold mergeBook
  by_cases hany : (rows.any fun r => r.isbn == b.isbn) = true
  · rw [if_pos hany, countP_map_applyUpdate]
  · rw [if_neg hany, countP_map_applyUpdate, List.countP_append]
    have hb : (b.isbn == k) = false := beq_eq_false_iff_ne.mpr hk
    simp [seedRow, List.countP_cons, hb]

lemma countKey_mergeBook_seed (today : String) (rows : List LedgerRow)
    (b : Book) (h0 : rows.countP (fun r => r.isbn == b.isbn) = 0) :
    (mergeBook today rows b).countP (fun r => r.isbn == b.isbn) = 1 := by
  unfold mergeBook
  have hany : ¬ (rows.any fun r => r.isbn == b.isbn) = true := by
    rw [List.any_eq_true]
    rintro ⟨r, hmem, hr⟩
    exact absurd hr (by simp [List.countP_eq_zero.mp h0 r hmem])
  rw [if_neg hany, countP_map_applyUpdate, List.countP_append, h0]
  simp [seedRow, List.countP_cons]

lemma countKey_foldl_ne (today : String) (books : List Book)
    (rows : List LedgerRow) (k : String) (hk : ∀ x ∈ books, x.isbn ≠ k) :
    (books.foldl (mergeBook today) rows).countP (fun r => r.isbn == k) =
      rows.countP (fun r => r.isbn == k) := by
  induction books generalizing rows with
  | nil => rfl
  | cons x rest ih =>
    rw [List.foldl_cons]
    rw [ih _ (fun y hy => hk y (List.mem_cons_of_mem x hy))]
    exact countKey_mergeBook_ne today rows x k (hk x (List.mem_cons_self x rest))

lemma update_historical_data_dateCols (today : String) (history : Ledger)
    (books : List Book) :
    (update_historical_data today history books).dateCols =
      if (history.dateCols.any fun c => c.date == today) = true
      then history.dateCols
      else history.dateCols ++
        [todayCol today (books.foldl (mergeBook today) history.rows) books] := by
  unfold update_historical_data
  by_cases h : (history.dateCols.any fun c => c.date == today) = true <;> simp [h]

/-- C6: for a book that already has a ledger row (with a present running best
price `p`): an absent today-best leaves the row unchanged; a today-best
`q ≤ p + 0.02` overwrites the running-best fields with today's values and
`best_date` with today's date; a today-best strictly above `p + 0.02` leaves
the row unchanged.  The book list is decomposed as `pre ++ b :: post` with no
other entry carrying `b`'s isbn. -/
theorem merge_existing_row_update (today : String) (L : Ledger)
    (pre post : List Book) (b : Book) (r : LedgerRow) (p : ℚ)
    (hpre : ∀ x ∈ pre, x.isbn ≠ b.isbn) (hpost : ∀ x ∈ post, x.isbn ≠ b.isbn)
    (hr : findRow L.rows b.isbn = some r) (hp : r.best_price = some p) :
    (b.best_price = none →
      findRow (update_historical_data today L (pre ++ b :: post)).rows b.isbn =
        some r) ∧
    (∀ q, b.best_price = some q →
      (q ≤ p + 2/100 →
        findRow (update_historical_data today L (pre ++ b :: post)).rows b.isbn =
          some { r with
            best_price := some q
            best_store := b.best_store
            discount := b.discount
            best_date := some today }) ∧
      (p + 2/100 < q →
        findRow (update_historical_data today L (pre ++ b :: post)).rows b.isbn =
          some r)) := by
  have hfind : findRow (update_historical_data today L (pre ++ b :: post)).rows
      b.isbn = some (updateRow today b r) := by
    rw [update_historical_data_rows]
    rw [findRow_fold_update today L.rows pre post b hpre hpost]
    rw [hr]
    rfl
  refine ⟨?_, ?_⟩
  · intro hnone
    rw [hfind]
    simp [updateRow, hnone]
  · intro q hq
    constructor
    · intro hle
      rw [hfind]
      simp [updateRow, hq, hp, hle]
    · intro hlt
      rw [hfind]
      simp [updateRow, hq, hp, not_le.mpr hlt]

/-- Witness for C6: a ledger row at best price 10.00 and today's best 9.98
(within tolerance) gets its running-best fields overwritten; today's best
10.03 (beyond tolerance) leaves the row unchanged; an absent today-best
leaves the row unchanged. -/
theorem merge_existing_row_update_witness :
    findRow (update_historical_data "2024-06-01"
        ⟨[⟨"1", "T", 20, some 10, some "A", some 50, some "2024-01-01"⟩], []⟩
        ([] ++ ⟨"1", "T", 20, some (998/100), some "B", some 50⟩ :: [])).rows
      "1" =
      some ⟨"1", "T", 20, some (998/100), some "B", some 50,
        some "2024-06-01"⟩ ∧
    findRow (update_historical_data "2024-06-01"
        ⟨[⟨"1", "T", 20, some 10, some "A", some 50, some "2024-01-01"⟩], []⟩
        ([] ++ ⟨"1", "T", 20, some (1003/100), some "B", some 50⟩ :: [])).rows
      "1" =
      some ⟨"1", "T", 20, some 10, some "A", some 50, some "2024-01-01"⟩ ∧
    findRow (update_historical_data "2024-06-01"
        ⟨[⟨"1", "T", 20, some 10, some "A", some 50, some "2024-01-01"⟩], []⟩
        ([] ++ ⟨"1", "T", 20, none, none, none⟩ :: [])).rows
      "1" =
      some ⟨"1", "T", 20, some 10, some "A", some 50, some "2024-01-01"⟩ := by
  refine ⟨?_, ?_, ?_⟩
  · exact ((merge_existing_row_update "2024-06-01"
      ⟨[⟨"1", "T", 20, some 10, some "A", some 50, some "2024-01-01"⟩], []⟩
      [] [] ⟨"1", "T", 20, some (998/100), some "B", some 50⟩
      ⟨"1", "T", 20, some 10, some "A", some 50, some "2024-01-01"⟩ 10
      (by simp) (by simp) rfl rfl).2 (998/100) rfl).1 (by norm_num)
  · exact ((merge_existing_row_update "2024-06-01"
      ⟨[⟨"1", "T", 20, some 10, some "A", some 50, some "2024-01-01"⟩], []⟩
      [] [] ⟨"1", "T", 20, some (1003/100), some "B", some 50⟩
      ⟨"1", "T", 20, some 10, some "A", some 50, some "2024-01-01"⟩ 10
      (by simp) (by simp) rfl rfl).2 (1003/100) rfl).2 (by norm_num)
  · exact (merge_existing_row_update "2024-06-01"
      ⟨[⟨"1", "T", 20, some 10, some "A", some 50, some "2024-01-01"⟩], []⟩
      [] [] ⟨"1", "T", 20, none, none, none⟩
      ⟨"1", "T", 20, some 10, some "A", some 50, some "2024-01-01"⟩ 10
      (by simp) (by simp) rfl rfl).1 rfl

/-- Intended new-book seeding, over the idealised by-name seed of `seedRow`
(what the spec prescribes and what lines 157-174 attempt): a book absent
from the ledger and present in today's records with a non-absent today-best
ends with exactly one ledger row, holding today's values and today's date.
The source's actual positional assignment at line 159 fails to implement
this; see `merge_new_book_seeding_code_eval`. -/
theorem merge_new_book_seeding (today : String) (L : Ledger)
    (pre post : List Book) (b : Book) (q : ℚ)
    (hpre : ∀ x ∈ pre, x.isbn ≠ b.isbn) (hpost : ∀ x ∈ post, x.isbn ≠ b.isbn)
    (habsent : L.rows.countP (fun r => r.isbn == b.isbn) = 0)
    (hq : b.best_price = some q) :
    (update_historical_data today L (pre ++ b :: post)).rows.countP
        (fun r => r.isbn == b.isbn) = 1 ∧
    findRow (update_historical_data today L (pre ++ b :: post)).rows b.isbn =
      some ⟨b.isbn, b.title, b.default_price, some q, b.best_store, b.discount,
        some today⟩ := by
  constructor
  · rw [update_historical_data_rows, List.foldl_append, List.foldl_cons]
    rw [countKey_foldl_ne today post _ b.isbn hpost]
    apply countKey_mergeBook_seed
    rw [countKey_foldl_ne today pre L.rows b.isbn hpre]
    exact habsent
  · rw [update_historical_data_rows]
    rw [findRow_fold_update today L.rows pre post b hpre hpost]
    have hfnone : findRow L.rows b.isbn = none := by
      rw [findRow, List.find?_eq_none]
      intro r hmem hr
      exact absurd hr (by simp [List.countP_eq_zero.mp habsent r hmem])
    rw [hfnone]
    show some (updateRow today b (seedRow b)) = _
    simp [updateRow, seedRow, hq, show q ≤ q + 2/100 by linarith]

/-- Concrete instance of the intended seeding behaviour: an empty ledger
seeded with today's record for isbn "1" ends with exactly one row for "1",
holding today's values and today's date. -/
theorem merge_new_book_seeding_witness :
    (update_historical_data "2024-06-01" ⟨[], []⟩
        ([] ++ ⟨"1", "T", 20, some 15, some "A", some 25⟩ :: [])).rows.countP
      (fun r => r.isbn == "1") = 1 ∧
    findRow (update_historical_data "2024-06-01" ⟨[], []⟩
        ([] ++ ⟨"1", "T", 20, some 15, some "A", some 25⟩ :: [])).rows "1" =
      some ⟨"1", "T", 20, some 15, some "A", some 25, some "2024-06-01"⟩ :=
  merge_new_book_seeding "2024-06-01" ⟨[], []⟩ [] []
    ⟨"1", "T", 20, some 15, some "A", some 25⟩ 15
    (by simp) (by simp) rfl rfl

/-- C7 (code evaluation at the failing input): the seeding assignment
`df_history.loc[idx] = book_series` at line 159 hands pandas the `itertuples`
namedtuple — the isbn index value followed by today's columns — which is
assigned to the ledger columns positionally and length-strictly
(`locAssign`).  For a new book (isbn "1", title "T", default price 20.00,
scraped best price 15.00 at store "A", discount 25) the ledger columns are
the shared catalog columns plus `best_date` plus one column per prior run
date.  With one prior date column the lengths mismatch and the assignment
raises `ValueError` — the run aborts and no row is seeded.  With no prior
date column the assignment goes through but every field lands one position
off: `best_price` receives the default price 20.00, `best_store` the best
price 15.00, `discount` the best store "A" and `best_date` the discount 25 —
not today's values as the claim requires. -/
theorem merge_new_book_seeding_code_eval :
    locAssign
        (["isbn", "title", "default_price", "best_price", "best_store",
          "discount"] ++ "best_date" :: ["2024-05-31"])
        (Cell.str "1" ::
          [Cell.str "1", Cell.str "T", Cell.rat 20, Cell.rat 15,
            Cell.str "A", Cell.int 25]) = Except.error "ValueError" ∧
    locAssign
        (["isbn", "title", "default_price", "best_price", "best_store",
          "discount"] ++ "best_date" :: [])
        (Cell.str "1" ::
          [Cell.str "1", Cell.str "T", Cell.rat 20, Cell.rat 15,
            Cell.str "A", Cell.int 25]) =
      Except.ok
        [("isbn", Cell.str "1"), ("title", Cell.str "1"),
          ("default_price", Cell.str "T"), ("best_price", Cell.rat 20),
          ("best_store", Cell.rat 15), ("discount", Cell.str "A"),
          ("best_date", Cell.int 25)] := by
  constructor <;> rfl

/-- C5 (counterexample): merging twice on the same date does not update the
existing date column with the second run's prices — book "1" is scraped at
10.00 on the first run and 8.00 on the second, yet the date column still
holds 10.00 after the second merge, and 10.00 is not 8.00. -/
theorem merge_same_date_counterexample :
    (update_historical_data "2024-06-01"
        (update_historical_data "2024-06-01" ⟨[], []⟩
          [⟨"1", "T", 20, some 10, some "A", some 50⟩])
        [⟨"1", "T", 20, some 8, some "A", some 60⟩]).dateCols =
      [⟨"2024-06-01", [("1", some 10)]⟩] ∧
    (10 : ℚ) ≠ 8 := by
  refine ⟨?_, by norm_num⟩
  have hcols : (update_historical_data "2024-06-01" ⟨[], []⟩
      [⟨"1", "T", 20, some 10, some "A", some 50⟩]).dateCols =
      [⟨"2024-06-01", [("1", some 10)]⟩] := by
    rw [update_historical_data_dateCols]
    rw [if_neg (by decide)]
    rw [List.nil_append]
    have hrows : List.foldl (mergeBook "2024-06-01") ([] : List LedgerRow)
        [⟨"1", "T", 20, some 10, some "A", some 50⟩] =
        [updateRow "2024-06-01" ⟨"1", "T", 20, some 10, some "A", some 50⟩
          (seedRow ⟨"1", "T", 20, some 10, some "A", some 50⟩)] := rfl
    rw [hrows]
    unfold todayCol
    simp [updateRow_isbn, seedRow, List.find?]
  rw [update_historical_data_dateCols]
  rw [hcols]
  rw [if_pos (by decide)]

/-- C5 (amended): a second merge on the same date adds no second column for
that date — it leaves the date columns exactly as after the first merge, so
the existing column keeps the first run's prices rather than being updated in
place; and a first merge on a date not yet present leaves exactly one column
for that date. -/
theorem merge_same_date_columns_stable (today : String) (L : Ledger)
    (B B₂ : List Book) :
    (update_historical_data today (update_historical_data today L B) B₂).dateCols
      = (update_historical_data today L B).dateCols ∧
    ((L.dateCols.any fun c => c.date == today) = false →
      (update_historical_data today L B).dateCols.countP
        (fun c => c.date == today) = 1) := by
  have hmem : ((update_historical_data today L B).dateCols.any
      fun c => c.date == today) = true := by
    rw [update_historical_data_dateCols]
    by_cases h : (L.dateCols.any fun c => c.date == today) = true
    · rw [if_pos h]
      exact h
    · rw [if_neg h, List.any_append]
      simp [todayCol]
  constructor
  · rw [update_historical_data_dateCols, if_pos hmem]
  · intro h0
    rw [update_historical_data_dateCols, if_neg (by simp [h0])]
    rw [List.countP_append]
    have hz : L.dateCols.countP (fun c => c.date == today) = 0 := by
      rw [List.countP_eq_zero]
      intro c hc
      simp only [List.any_eq_false] at h0
      exact h0 c hc
    rw [hz]
    simp [todayCol, List.countP_cons]

/-- Witness for C5's amended claim: on an empty ledger, the first merge on a
date creates exactly one column for it and a second merge on the same date
leaves the columns unchanged. -/
theorem merge_same_date_columns_stable_witness :
    (update_historical_data "2024-06-01"
        (update_historical_data "2024-06-01" ⟨[], []⟩
          [⟨"1", "T", 20, some 10, some "A", some 50⟩])
        [⟨"1", "T", 20, some 8, some "A", some 60⟩]).dateCols
      = (update_historical_data "2024-06-01" ⟨[], []⟩
          [⟨"1", "T", 20, some 10, some "A", some 50⟩]).dateCols ∧
    (update_historical_data "2024-06-01" ⟨[], []⟩
        [⟨"1", "T", 20, some 10, some "A", some 50⟩]).dateCols.countP
      (fun c => c.date == "2024-06-01") = 1 := by
  have h := merge_same_date_columns_stable "2024-06-01" ⟨[], []⟩
    [⟨"1", "T", 20, some 10, some "A", some 50⟩]
    [⟨"1", "T", 20, some 8, some "A", some 60⟩]
  exact ⟨h.1, h.2 rfl⟩

/-- C10: a ledger row whose isbn is absent from today's book table is left
entirely unchanged by the merge; the only addition concerning it is the new
date column, which holds an absent value for that isbn. -/
theorem merge_untracked_row_frame (today : String) (L : Ledger)
    (books : List Book) (k : String) (r : LedgerRow)
    (hk : ∀ b ∈ books, b.isbn ≠ k)
    (hr : findRow L.rows k = some r)
    (hnew : (L.dateCols.any fun c => c.date == today) = false) :
    findRow (update_historical_data today L books).rows k = some r ∧
    (update_historical_data today L books).dateCols =
      L.dateCols ++
        [todayCol today (books.foldl (mergeBook today) L.rows) books] ∧
    (todayCol today (books.foldl (mergeBook today) L.rows) books).prices.find?
        (fun pr => pr.1 == k) = some (k, none) := by
  refine ⟨?_, ?_, ?_⟩
  · rw [update_historical_data_rows]
    rw [findRow_foldl_ne today books L.rows k hk]
    exact hr
  · rw [update_historical_data_dateCols, if_neg (by simp [hnew])]
  · have hfr : findRow (books.foldl (mergeBook today) L.rows) k = some r := by
      rw [findRow_foldl_ne today books L.rows k hk]
      exact hr
    have hrk : r.isbn = k := by
      have := List.find?_some hfr
      simpa using this
    unfold todayCol
    rw [List.find?_map]
    have hpred : ((fun pr : String × Option ℚ => pr.1 == k) ∘
        (fun r : LedgerRow =>
          (r.isbn, (books.find? (fun b => b.isbn == r.isbn)).bind
            Book.best_price))) = fun r : LedgerRow => r.isbn == k := by
      funext r
      rfl
    rw [hpred]
    rw [show (books.foldl (mergeBook today) L.rows).find?
        (fun r => r.isbn == k) = some r from hfr]
    have hbooks : books.find? (fun b => b.isbn == r.isbn) = none := by
      rw [List.find?_eq_none]
      intro b hb
      have hbk : b.isbn ≠ k := hk b hb
      rw [hrk]
      simp [hbk]
    show some (r.isbn, (books.find? (fun b => b.isbn == r.isbn)).bind
      Book.best_price) = some (k, none)
    rw [hbooks, hrk]
    rfl

/-- Witness for C10: a ledger holding isbn "9" merged against a today-table
holding only isbn "1" leaves the "9" row unchanged, and the new date column
holds an absent price for "9". -/
theorem merge_untracked_row_frame_witness :
    findRow (update_historical_data "2024-06-01"
        ⟨[⟨"9", "S", 30, some 25, some "A", some 17, some "2024-01-01"⟩], []⟩
        [⟨"1", "T", 20, some 10, some "B", some 50⟩]).rows "9" =
      some ⟨"9", "S", 30, some 25, some "A", some 17, some "2024-01-01"⟩ ∧
    (todayCol "2024-06-01"
        ([⟨"1", "T", 20, some 10, some "B", some 50⟩].foldl
          (mergeBook "2024-06-01")
          [⟨"9", "S", 30, some 25, some "A", some 17, some "2024-01-01"⟩])
        [⟨"1", "T", 20, some 10, some "B", some 50⟩]).prices.find?
      (fun pr => pr.1 == "9") = some ("9", none) := by
  have h := merge_untracked_row_frame "2024-06-01"
    ⟨[⟨"9", "S", 30, some 25, some "A", some 17, some "2024-01-01"⟩], []⟩
    [⟨"1", "T", 20, some 10, some "B", some 50⟩] "9"
    ⟨"9", "S", 30, some 25, some "A", some 17, some "2024-01-01"⟩
    (by
      intro b hb
      rw [List.mem_singleton] at hb
      subst hb
      decide)
    rfl rfl
  exact ⟨h.1, h.2.2⟩

/-! ## Store adapters and transport errors -/

/-- The parsed page of a store response: presence/content of the HTML
elements the three adapters select.  The locale normalisation and `float`
parsing of a present price element is abstracted to its parsed rational
value. -/
structure Html where
  messageNotice : Bool
  finalPrice : Option ℚ
  divRight : Option ℚ
  priceSpan : Option ℚ
deriving DecidableEq, Repr

/-- The transport outcome of one request: HTTP status code and body. -/
structure Response where
  status_code : Nat
  text : Html
deriving DecidableEq, Repr

/-- `get_html_from_url`: `requests.get` followed by
`response.raise_for_status()`, which raises `HTTPError` exactly for status
codes 400-599; on success the body is returned parsed. -/
def get_html_from_url (response : Response) : Except String Html :=
  if 400 ≤ response.status_code ∧ response.status_code < 600 then
    Except.error "HTTPError"
  else Except.ok response.text

/-- `get_price_almedina`: fetch via `get_html_from_url`; a "message notice"
element means the book was not found; otherwise the final-price element, if
present, carries the price. -/
def get_price_almedina (response : Response) : Except String (Option ℚ) := do
  let html ← get_html_from_url response
  if html.messageNotice then
    return none
  else
    match html.finalPrice with
    | some price => return some price
    | none => return none

/-- `get_price_leya`: issues a raw `requests.post` and parses the body
directly — the source never calls `raise_for_status`, so the status code is
ignored entirely. -/
def get_price_leya (response : Response) : Except String (Option ℚ) :=
  match response.text.divRight with
  | some price => Except.ok (some price)
  | none => Except.ok none

/-- `get_price_presenca`: fetch via `get_html_from_url`; the styled price
span, if present, carries the price. -/
def get_price_presenca (response : Response) : Except String (Option ℚ) := do
  let html ← get_html_from_url response
  match html.priceSpan with
  | some price => return some price
  | none => return none

/-- C8 (counterexample): the Leya adapter on a 404 response whose body has no
price element returns `Except.ok none` — a plain absence result, not a
propagated error, contradicting the claim that every adapter aborts on a
non-2xx response. -/
theorem leya_transport_failure_counterexample :
    get_price_leya ⟨404, ⟨false, none, none, none⟩⟩ = Except.ok none := rfl

/-- C8 (amended): the Almedina and Presenca adapters abort with a propagated
error on every failure status (400-599, the statuses `raise_for_status`
raises on); the Leya adapter performs no status check at all — its result is
determined by the response body alone, so a non-2xx response yields absence
(or even a price) instead of an error. -/
theorem adapters_transport_failure (response : Response)
    (h4 : 400 ≤ response.status_code) (h6 : response.status_code < 600) :
    get_price_almedina response = Except.error "HTTPError" ∧
    get_price_presenca response = Except.error "HTTPError" ∧
    get_price_leya response = Except.ok response.text.divRight := by
  have hfail : get_html_from_url response = Except.error "HTTPError" := by
    unfold get_html_from_url
    rw [if_pos ⟨h4, h6⟩]
  refine ⟨?_, ?_, ?_⟩
  · unfold get_price_almedina
    rw [hfail]
    rfl
  · unfold get_price_presenca
    rw [hfail]
    rfl
  · unfold get_price_leya
    cases response.text.divRight <;> rfl

/-- Witness for C8's amended claim at status 404. -/
theorem adapters_transport_failure_witness :
    get_price_almedina ⟨404, ⟨false, some 10, some 10, some 10⟩⟩ =
      Except.error "HTTPError" ∧
    get_price_presenca ⟨404, ⟨false, some 10, some 10, some 10⟩⟩ =
      Except.error "HTTPError" ∧
    get_price_leya ⟨404, ⟨false, some 10, some 10, some 10⟩⟩ =
      Except.ok (some 10) :=
  adapters_transport_failure ⟨404, ⟨false, some 10, some 10, some 10⟩⟩
    (by norm_num) (by norm_num)

end BookSearch
